import Mathlib

/-!
Verification of `sconv` (src/main.cpp): a single-file stream recoder that
reads a byte stream, converts each chunk from UTF-8 to the platform wide
character encoding via iconv, writes the result, and optionally publishes
the output through a temp-file / rename swap.

The embedding is a shallow one: the program is modelled as a pure function
from the argument vector and an *oracle* of system-call results (read
chunks, iconv outcomes, write return values, mkstemp / chmod / rename
results) to a trace of externally observable events plus the process exit
status.  Filesystem-visible effects of a trace are computed by folding an
event interpreter over a map from paths to file contents.
-/

namespace Sconv

/-- `buf_sz` from main.cpp line 96: size of the read buffer. -/
def buf_sz : Nat := 4096

/-- `sizeof(wchar_t)` on the target platform (glibc/Linux: 4 bytes). -/
def wcharSize : Nat := 4

/-- The byte count passed to every `read` call: `buf_sz - 1` (line 124). -/
def readCount : Nat := buf_sz - 1

/-- `VERSION` from main.cpp line 30. -/
def VERSION : String := "0.0.1"

/-- The usage text printed by `print_help` (lines 35-43), as a function of
the program name (`argv[0]`) and version, faithful to the source string
literals (including the `STDOUt` typo). -/
def helpText (prog version : String) : String :=
  "Usage: " ++ prog ++ " [options] (input file)\nExecutes sconv " ++ version ++
  "\n\n" ++
  "Converts an input file (or STDIN when not specified) from a given format\n" ++
  "to another file (or STDOUt when not set)\n\n" ++
  "-o, --output-file f Specifies output file (f) to be written; when not set, STDOUT\n" ++
  "                    is used as output\n" ++
  "    --help          prints this help and exit\n\n"

/-- Whether `p` is a leading substring of `s` (used to model getopt's
classification of tokens that begin with `-` or `--`). -/
def hasPre (p s : String) : Bool := s.toList.take p.toList.length = p.toList

/-- State accumulated by the argument scan: the `outfile` global
(main.cpp line 33) and the non-option arguments, in order (GNU getopt
permutes them behind the options; the program reads `argv[optind]`,
the first of them). -/
structure ParseSt where
  outfile : String
  positionals : List String
deriving Repr, DecidableEq

/-- Outcome of `parse_args` (lines 45-83): either the `--help` path
(print usage and `std::exit(0)`), or normal completion with the final
`outfile` value and the positional arguments. -/
inductive ParseOut where
  | help
  | args (outfile : String) (positionals : List String)
deriving Repr, DecidableEq

/-- Result of scanning one cluster of short options (`-abc`): either the
cluster is done (with a possibly updated `outfile`), or it ended in `-o`
with no attached value, so the next argv element is consumed as the
option argument. -/
inductive ShortRes where
  | cont (outfile : String)
  | needArg
deriving Repr, DecidableEq

/-- Scan the characters of one short-option cluster, as getopt does with
option string `"o:"`: `o` takes the rest of the cluster as its argument
when non-empty (else the next argv element); any other character is the
`'?'` case of the switch (line 75), which does nothing. -/
def scanShorts (outfile : String) : List Char → ShortRes
  | [] => .cont outfile
  | c :: cs =>
    if c = 'o' then
      if cs = [] then .needArg else .cont (String.mk cs)
    else
      scanShorts outfile cs

/-- The `getopt_long` scan driving the `while` loop of `parse_args`
(lines 53-81), over the argument vector after the program name.
Recognized: `--help` (exit via help), `-o`/`--output-file` with a
required argument (sets `outfile`), `--` (end of options).  An
unrecognized long or short option is getopt's `'?'` return, which the
switch ignores; a missing required argument is also `'?'` and ends the
useful scan.  (GNU long-option prefix abbreviation is not modelled; no
claim involves abbreviated options.)  The `default:` throw at line 79 is
unreachable: with this option table getopt only returns `-1`, `0`, `'o'`
or `'?'`. -/
def scanArgs (st : ParseSt) : List String → ParseOut
  | [] => .args st.outfile st.positionals
  | a :: rest =>
    if a = "--" then .args st.outfile (st.positionals ++ rest)
    else if a = "--help" then .help
    else if a = "--output-file" then
      match rest with
      | [] => .args st.outfile st.positionals
      | v :: rest2 => scanArgs ⟨v, st.positionals⟩ rest2
    else if hasPre "--output-file=" a then
      scanArgs ⟨a.drop 14, st.positionals⟩ rest
    else if hasPre "--" a then
      scanArgs st rest
    else if hasPre "-" a ∧ a ≠ "-" then
      match scanShorts st.outfile (a.toList.drop 1) with
      | .cont out2 => scanArgs ⟨out2, st.positionals⟩ rest
      | .needArg =>
        match rest with
        | [] => .args st.outfile st.positionals
        | v :: rest2 => scanArgs ⟨v, st.positionals⟩ rest2
    else
      scanArgs ⟨st.outfile, st.positionals ++ [a]⟩ rest

/-- `parse_args` (lines 45-83): scan the argument vector after the
program name, starting from the empty `outfile` global. -/
def parse_args (argv : List String) : ParseOut :=
  scanArgs ⟨"", []⟩ argv.tail

/-- `get_basedir` (lines 85-90) on a character list: the prefix up to and
including the last `/`, or empty when there is no slash
(`std::string(fname, p+1)` with `p = strrchr(fname, '/')`). -/
def basedirChars : List Char → List Char
  | [] => []
  | c :: cs =>
    if '/' ∈ cs then c :: basedirChars cs
    else if c = '/' then [c]
    else []

/-- `get_basedir` (lines 85-90). -/
def get_basedir (fname : String) : String := String.mk (basedirChars fname.toList)

/-- `std::snprintf(buf, 255, ...)` (line 117) stores at most 254
characters plus the terminator: longer output is truncated. -/
def snprintf255 (s : String) : String := String.mk (s.toList.take 254)

/-- The template handed to `mkstemp` (line 117):
`snprintf(buf, 255, "%ssconv-XXXXXX", get_basedir(outfile))`. -/
def tmpTemplate (outfile : String) : String :=
  snprintf255 (get_basedir outfile ++ "sconv-XXXXXX")

/-- Where the output descriptor points: standard output, or the fresh
temp file created by `mkstemp` (whose writes land in that file). -/
inductive Sink where
  | stdout
  | tmpFd (path : String)
deriving Repr, DecidableEq

/-- Externally observable events of one run: system calls with their
results, and lines printed to the error stream. -/
inductive Ev where
  | openIn (path : String) (ok : Bool)
  | mkstempEv (template : String) (res : Option String)
  | readReq (count : Nat) (rv : Int)
  | fdWrite (sink : Sink) (attempted : List Nat) (ret : Int)
  | chmodEv (path : String) (mode : Nat) (ok : Bool)
  | renameEv (src : String) (dst : String) (ok : Bool)
  | stderrOut (msg : String)
deriving Repr, DecidableEq

/-- Oracle data for one loop iteration whose `read` returned a positive
count: the bytes read, the `iconv_open` outcome, what `iconv` left in
the output buffer and in the two size variables, and what `write`
returned. -/
structure ChunkO where
  data : List Nat
  icOpenOk : Bool
  outbuf : List Nat
  sInLeft : Nat
  sOutLeft : Nat
  writeRet : Int
deriving Repr, DecidableEq

/-- One `read` result: a positive chunk, end of stream (`0`), or a read
error (negative, modelled as `-1`). -/
inductive ReadRes where
  | chunk (c : ChunkO)
  | eof
  | rerr
deriving Repr, DecidableEq

/-- POSIX-side well-formedness of one chunk oracle: `read` returns at
most the requested `buf_sz - 1` bytes and a positive count; `iconv`
only decrements `sOut` from its initial `rv * sizeof(wchar_t)`, and the
bytes it stored in the output buffer are exactly the capacity minus what
is left. -/
def ChunkO.wf (c : ChunkO) : Bool :=
  decide (0 < c.data.length) && decide (c.data.length ≤ buf_sz - 1) &&
  decide (c.sOutLeft ≤ c.data.length * wcharSize) &&
  decide (c.outbuf.length = c.data.length * wcharSize - c.sOutLeft)

/-- Well-formedness of a whole read trace. -/
def readsWF (rs : List ReadRes) : Bool :=
  rs.all fun r => match r with | .chunk c => c.wf | _ => true

/-- The full system-call oracle of one run. -/
structure Oracle where
  openInOk : Bool
  mkstempName : Option String
  reads : List ReadRes
  chmodOk : Bool
  renameOk : Bool
deriving Repr, DecidableEq

/-- `to_write` of one chunk (line 135):
`rv * sizeof(wchar_t) - sOut` after the iconv call. -/
def toWrite (c : ChunkO) : Nat := c.data.length * wcharSize - c.sOutLeft

/-- The bytes handed to `write` for one chunk: the first `to_write`
bytes of the output buffer. -/
def chunkWritten (c : ChunkO) : List Nat := c.outbuf.take (toWrite c)

/-- Result of the conversion loop (lines 124-139): the events it
produced, and either the accumulated `total_cnv` or the message of the
`std::runtime_error` it threw. -/
inductive LoopRes where
  | ok (evs : List Ev) (total : Nat)
  | fail (evs : List Ev) (msg : String)
deriving Repr, DecidableEq

/-- The events of a loop result. -/
def LoopRes.evs : LoopRes → List Ev
  | .ok evs _ => evs
  | .fail evs _ => evs

/-- Whether the loop threw. -/
def LoopRes.isFail : LoopRes → Bool
  | .ok _ _ => false
  | .fail _ _ => true

/-- The `while((rv = read(in_fd, buf, buf_sz-1)) > 0)` loop
(lines 124-139).  Per iteration: read a chunk; a zero or negative
return ends the loop normally.  Otherwise open an iconv context
(failure throws), feed the chunk through it — the return value of
`iconv` and the residual input count `sIn` are never consulted — and
write the first `rv*sizeof(wchar_t) - sOut` bytes of the output buffer;
a write returning any other count throws; otherwise the count is added
to `total_cnv` and the loop repeats. -/
def convLoop (sink : Sink) : List ReadRes → Nat → LoopRes
  | [], total => .ok [.readReq readCount 0] total
  | .eof :: _, total => .ok [.readReq readCount 0] total
  | .rerr :: _, total => .ok [.readReq readCount (-1)] total
  | .chunk c :: rest, total =>
    if c.data.length = 0 then .ok [.readReq readCount 0] total
    else
      let rEv := Ev.readReq readCount (Int.ofNat c.data.length)
      if c.icOpenOk = false then
        .fail [rEv] "This system can't convert from UTF-8 to WCHAR_T"
      else
        let wEv := Ev.fdWrite sink (chunkWritten c) c.writeRet
        if c.writeRet ≠ Int.ofNat (toWrite c) then
          .fail [rEv, wEv] "Couldn't write the required bytes to stdout"
        else
          match convLoop sink rest (total + toWrite c) with
          | .ok evs t => .ok (rEv :: wEv :: evs) t
          | .fail evs m => .fail (rEv :: wEv :: evs) m

/-- The bytes successfully written by a loop run that completes
normally: the concatenation of each chunk's written prefix. -/
def loopOutput : List ReadRes → List Nat
  | [] => []
  | .eof :: _ => []
  | .rerr :: _ => []
  | .chunk c :: rest =>
    if c.data.length = 0 then [] else chunkWritten c ++ loopOutput rest

/-- Events of the input-file setup (lines 108-112): opening the
positional argument when one was given. -/
def inputEvs (ps : List String) (ok : Bool) : List Ev :=
  match ps with
  | [] => []
  | p :: _ => [.openIn p ok]

/-- Whether the input setup succeeded (no positional, or `open` ok). -/
def inputOk (ps : List String) (ok : Bool) : Bool :=
  match ps with
  | [] => true
  | _ :: _ => ok

/-- The input path named in the open-failure message. -/
def inputName (ps : List String) : String := ps.headD ""

/-- The byte-count report of line 149. -/
def writtenMsg (total : Nat) : String := "Written: " ++ toString total ++ " bytes"

/-- `S_IRWXU|S_IRGRP|S_IROTH` (line 144): owner rwx, group r, other r. -/
def outMode : Nat := 0o744

/-- The body of `main`'s `try` block (lines 94-149): `.ok` is any normal
return (the `--help` exit, the silent `return false` when `mkstemp`
fails, or full completion with the byte-count report), `.error` carries
the events so far plus the message of the thrown `runtime_error`. -/
def mainBody (argv : List String) (o : Oracle) : Except (List Ev × String) (List Ev) :=
  match parse_args argv with
  | .help => .ok [.stderrOut (helpText (argv.headD "") VERSION)]
  | .args outfile positionals =>
    let inEvs := inputEvs positionals o.openInOk
    if inputOk positionals o.openInOk = false then
      .error (inEvs, "Can't open file '" ++ inputName positionals ++ "' as input")
    else if outfile = "" then
      match convLoop .stdout o.reads 0 with
      | .fail evs msg => .error (inEvs ++ evs, msg)
      | .ok evs total => .ok (inEvs ++ evs ++ [.stderrOut (writtenMsg total)])
    else
      match o.mkstempName with
      | none => .ok (inEvs ++ [.mkstempEv (tmpTemplate outfile) none])
      | some tmp =>
        match convLoop (.tmpFd tmp) o.reads 0 with
        | .fail evs msg =>
          .error (inEvs ++ .mkstempEv (tmpTemplate outfile) (some tmp) :: evs, msg)
        | .ok evs total =>
          let pre := inEvs ++ .mkstempEv (tmpTemplate outfile) (some tmp) :: evs
          if o.chmodOk = false then
            .error (pre ++ [.chmodEv tmp outMode false],
                    "Can't change permissions of output file")
          else if o.renameOk = false then
            .error (pre ++ [.chmodEv tmp outMode true, .renameEv tmp outfile false],
                    "Can't swap temp file to output file")
          else
            .ok (pre ++ [.chmodEv tmp outMode true, .renameEv tmp outfile true,
                         .stderrOut (writtenMsg total)])

/-- What one run produced: its event trace and the process exit status. -/
structure RunOut where
  evs : List Ev
  status : Nat
deriving Repr, DecidableEq

/-- `main` (lines 93-155): run the body; a `std::exception` is caught
and reported as `"Exception: " ++ what()` on the error stream.  `main`
never sets a non-zero status: every path (normal completion, the help
exit, the `return false` after a failed `mkstemp`, and the catch
blocks) ends the process with status 0. -/
def sconvMain (argv : List String) (o : Oracle) : RunOut :=
  match mainBody argv o with
  | .ok evs => ⟨evs, 0⟩
  | .error (evs, msg) => ⟨evs ++ [.stderrOut ("Exception: " ++ msg)], 0⟩

/-- A filesystem: a map from paths to file contents. -/
def Fs : Type := String → Option (List Nat)

/-- Filesystem effect of one event.  `mkstemp` creates the fresh temp
file empty; a write to the temp descriptor appends the bytes the kernel
accepted (`ret` of them); a successful `rename` moves the source's
content onto the destination.  Reads, stderr output, stdout writes and
`chmod` do not change any file's contents. -/
def applyEv (fs : Fs) (e : Ev) : Fs :=
  match e with
  | .mkstempEv _ (some name) => fun p => if p = name then some [] else fs p
  | .fdWrite (.tmpFd path) att ret =>
    fun p => if p = path then some (((fs path).getD []) ++ att.take ret.toNat) else fs p
  | .renameEv src dst true =>
    fun p => if p = dst then fs src else if p = src then none else fs p
  | _ => fs

/-- Filesystem state after a list of events. -/
def runFs (fs : Fs) (evs : List Ev) : Fs := evs.foldl applyEv fs

/-- Whether an event can change the content visible at path `q`. -/
def touches (e : Ev) (q : String) : Bool :=
  match e with
  | .mkstempEv _ (some name) => q = name
  | .fdWrite (.tmpFd path) _ _ => q = path
  | .renameEv src dst ok => ok && (q = src || q = dst)
  | _ => false

/-- Prefix a loop result's event list with a read event and a write
event (the shape of one successful loop iteration). -/
def LoopRes.prepend (e1 e2 : Ev) : LoopRes → LoopRes
  | .ok evs t => .ok (e1 :: e2 :: evs) t
  | .fail evs m => .fail (e1 :: e2 :: evs) m

/-- The events of the try-block body, whether it returned or threw. -/
def bodyEvs : Except (List Ev × String) (List Ev) → List Ev
  | .ok evs => evs
  | .error (evs, _) => evs

/-- Erase the residual-input count `iconv` reported for a chunk (the
value the program stores in `sIn` and never reads). -/
def scrubSIn : ReadRes → ReadRes
  | .chunk c => .chunk { c with sInLeft := 0 }
  | r => r

lemma runFs_append (fs : Fs) (A B : List Ev) :
    runFs fs (A ++ B) = runFs (runFs fs A) B := by
  simp [runFs, List.foldl_append]

lemma applyEv_not_touches {e : Ev} {q : String} (h : touches e q = false) (fs : Fs) :
    applyEv fs e q = fs q := by
  cases e with
  | mkstempEv t res =>
    cases res with
    | none => rfl
    | some name =>
      simp only [touches, decide_eq_false_iff_not] at h
      simp [applyEv, h]
  | fdWrite sink att ret =>
    cases sink with
    | stdout => rfl
    | tmpFd p =>
      simp only [touches, decide_eq_false_iff_not] at h
      simp [applyEv, h]
  | renameEv src dst ok =>
    cases ok with
    | false => rfl
    | true =>
      simp only [touches, Bool.true_and, Bool.or_eq_false_iff,
        decide_eq_false_iff_not] at h
      simp [applyEv, h.1, h.2]
  | openIn p ok => rfl
  | readReq c r => rfl
  | chmodEv p m ok => rfl
  | stderrOut s => rfl

lemma runFs_not_touches (q : String) :
    ∀ (evs : List Ev) (fs : Fs), (∀ e ∈ evs, touches e q = false) →
      runFs fs evs q = fs q
  | [], _, _ => rfl
  | e :: rest, fs, h => by
    have h1 : touches e q = false := h e (List.mem_cons_self e rest)
    have hrec := runFs_not_touches q rest (applyEv fs e)
      (fun e' he' => h e' (List.mem_cons_of_mem e he'))
    calc runFs fs (e :: rest) q = runFs (applyEv fs e) rest q := rfl
    _ = applyEv fs e q := hrec
    _ = fs q := applyEv_not_touches h1 fs

lemma convLoop_shape (sink : Sink) :
    ∀ (rs : List ReadRes) (total : Nat) (e : Ev),
      e ∈ (convLoop sink rs total).evs →
      (∃ r, e = .readReq readCount r) ∨ (∃ a r, e = .fdWrite sink a r)
  | [], total, e, he => by
    simp only [convLoop, LoopRes.evs, List.mem_singleton] at he
    exact Or.inl ⟨_, he⟩
  | .eof :: _, total, e, he => by
    simp only [convLoop, LoopRes.evs, List.mem_singleton] at he
    exact Or.inl ⟨_, he⟩
  | .rerr :: _, total, e, he => by
    simp only [convLoop, LoopRes.evs, List.mem_singleton] at he
    exact Or.inl ⟨_, he⟩
  | .chunk c :: rest, total, e, he => by
    simp only [convLoop] at he
    by_cases h0 : c.data.length = 0
    · rw [if_pos h0] at he
      simp only [LoopRes.evs, List.mem_singleton] at he
      exact Or.inl ⟨_, he⟩
    · rw [if_neg h0] at he
      by_cases hic : c.icOpenOk = false
      · rw [if_pos hic] at he
        simp only [LoopRes.evs, List.mem_singleton] at he
        exact Or.inl ⟨_, he⟩
      · rw [if_neg hic] at he
        by_cases hw : c.writeRet ≠ Int.ofNat (toWrite c)
        · rw [if_pos hw] at he
          simp only [LoopRes.evs, List.mem_cons, List.mem_singleton] at he
          rcases he with he | he | he
          · exact Or.inl ⟨_, he⟩
          · exact Or.inr ⟨_, _, he⟩
          · exact absurd he (by simp)
        · rw [if_neg hw] at he
          rcases hrec : convLoop sink rest (total + toWrite c) with ⟨evs, t⟩ | ⟨evs, m⟩ <;>
            rw [hrec] at he <;>
            simp only [LoopRes.evs, List.mem_cons] at he <;>
            [skip; skip] <;>
            rcases he with he | he | he
          · exact Or.inl ⟨_, he⟩
          · exact Or.inr ⟨_, _, he⟩
          · have := convLoop_shape sink rest (total + toWrite c) e (by rw [hrec]; exact he)
            exact this
          · exact Or.inl ⟨_, he⟩
          · exact Or.inr ⟨_, _, he⟩
          · have := convLoop_shape sink rest (total + toWrite c) e (by rw [hrec]; exact he)
            exact this

lemma convLoop_touches {tmp q : String} (hq : q ≠ tmp) (rs : List ReadRes) (total : Nat) :
    ∀ e ∈ (convLoop (.tmpFd tmp) rs total).evs, touches e q = false := by
  intro e he
  rcases convLoop_shape _ rs total e he with ⟨r, rfl⟩ | ⟨a, r, rfl⟩
  · rfl
  · simp [touches, hq]

lemma runFs_cons (fs : Fs) (e : Ev) (evs : List Ev) :
    runFs fs (e :: evs) = runFs (applyEv fs e) evs := rfl

lemma convLoop_ok_content (tmp : String) :
    ∀ (rs : List ReadRes) (total : Nat) (evs : List Ev) (t : Nat),
      convLoop (.tmpFd tmp) rs total = .ok evs t →
      ∀ (fs : Fs) (acc : List Nat), fs tmp = some acc →
        runFs fs evs tmp = some (acc ++ loopOutput rs)
  | [], total, evs, t, h, fs, acc, hfs => by
    simp only [convLoop, LoopRes.ok.injEq] at h
    obtain ⟨rfl, rfl⟩ := h
    simp [runFs, applyEv, loopOutput, hfs]
  | .eof :: rest, total, evs, t, h, fs, acc, hfs => by
    simp only [convLoop, LoopRes.ok.injEq] at h
    obtain ⟨rfl, rfl⟩ := h
    simp [runFs, applyEv, loopOutput, hfs]
  | .rerr :: rest, total, evs, t, h, fs, acc, hfs => by
    simp only [convLoop, LoopRes.ok.injEq] at h
    obtain ⟨rfl, rfl⟩ := h
    simp [runFs, applyEv, loopOutput, hfs]
  | .chunk c :: rest, total, evs, t, h, fs, acc, hfs => by
    simp only [convLoop] at h
    by_cases h0 : c.data.length = 0
    · rw [if_pos h0] at h
      simp only [LoopRes.ok.injEq] at h
      obtain ⟨rfl, rfl⟩ := h
      simp [runFs, applyEv, loopOutput, h0, hfs]
    · rw [if_neg h0] at h
      by_cases hic : c.icOpenOk = false
      · rw [if_pos hic] at h; exact absurd h (by simp)
      · rw [if_neg hic] at h
        by_cases hw : c.writeRet ≠ Int.ofNat (toWrite c)
        · rw [if_pos hw] at h; exact absurd h (by simp)
        · rw [if_neg hw] at h
          push_neg at hw
          rcases hrec : convLoop (.tmpFd tmp) rest (total + toWrite c) with
            ⟨evs', t'⟩ | ⟨evs', m'⟩
          · rw [hrec] at h
            simp only [LoopRes.ok.injEq] at h
            obtain ⟨rfl, rfl⟩ := h
            rw [runFs_cons, runFs_cons]
            have hr : applyEv fs (.readReq readCount (Int.ofNat c.data.length)) = fs := rfl
            rw [hr]
            have hfs1 : applyEv fs (.fdWrite (.tmpFd tmp) (chunkWritten c) c.writeRet) tmp
                = some (acc ++ chunkWritten c) := by
              simp only [applyEv, if_pos rfl, hfs, Option.getD_some, hw, Int.toNat_ofNat,
                chunkWritten, List.take_take, min_self]
              simp
            have := convLoop_ok_content tmp rest (total + toWrite c) evs' t' hrec
              (applyEv fs (.fdWrite (.tmpFd tmp) (chunkWritten c) c.writeRet))
              (acc ++ chunkWritten c) hfs1
            rw [this]
            simp [loopOutput, h0, List.append_assoc]
          · rw [hrec] at h; exact absurd h (by simp)

lemma snprintf255_eq {s : String} (h : s.length ≤ 254) : snprintf255 s = s := by
  unfold snprintf255
  rw [show s.toList = s.data from rfl, List.take_of_length_le h]

/-- Claim C7: every fatal error of a run is caught and reported on the
error stream as `"Exception: "` followed by the error's message, and the
process then exits with status 0; the exit status is 0 on every run,
whether it failed or completed. -/
theorem C7_exit_status_zero_and_exception_report (argv : List String) (o : Oracle) :
    (sconvMain argv o).status = 0 ∧
    (∀ evs msg, mainBody argv o = .error (evs, msg) →
      (sconvMain argv o).evs = evs ++ [.stderrOut ("Exception: " ++ msg)]) := by
  constructor
  · cases hm : mainBody argv o with
    | ok evs => simp [sconvMain, hm]
    | error p => rcases p with ⟨evs, msg⟩; simp [sconvMain, hm]
  · intro evs msg h
    simp [sconvMain, h]

/-- Witness for C7: a concrete failing run (unopenable input file) exits
with status 0 and reports the error with the `Exception: ` prefix. -/
theorem C7_exit_status_zero_and_exception_report_witness :
    (sconvMain ["sconv", "nosuch"] ⟨false, none, [], true, true⟩).status = 0 ∧
    (sconvMain ["sconv", "nosuch"] ⟨false, none, [], true, true⟩).evs =
      [.openIn "nosuch" false,
       .stderrOut "Exception: Can't open file 'nosuch' as input"] := by
  refine ⟨(C7_exit_status_zero_and_exception_report ["sconv", "nosuch"]
    ⟨false, none, [], true, true⟩).1, ?_⟩
  rw [(C7_exit_status_zero_and_exception_report ["sconv", "nosuch"]
    ⟨false, none, [], true, true⟩).2 [.openIn "nosuch" false]
    "Can't open file 'nosuch' as input" rfl]
  rfl

/-- Claim C9 (amended): when the argument scan parses `--help` as the
help option, the program prints the usage text to the error stream and
exits immediately with status 0: no conversion, no file event of any
kind. -/
theorem C9_help_exits_before_io (argv : List String) (o : Oracle)
    (h : parse_args argv = .help) :
    sconvMain argv o = ⟨[.stderrOut (helpText (argv.headD "") VERSION)], 0⟩ := by
  unfold sconvMain mainBody
  rw [h]

/-- Witness for C9: `--help` with extra arguments still takes the help
exit. -/
theorem C9_help_exits_before_io_witness :
    sconvMain ["sconv", "in.txt", "--help"] ⟨true, none, [], true, true⟩ =
      ⟨[.stderrOut (helpText "sconv" VERSION)], 0⟩ :=
  C9_help_exits_before_io ["sconv", "in.txt", "--help"]
    ⟨true, none, [], true, true⟩ (by decide)

/-- Counterexample to C9 as stated: `--help` given as the argument of a
preceding `-o` is consumed as the output path, so the run performs file
I/O (mkstemp and a rename onto the path `--help`) and never prints the
usage text. -/
theorem C9_counterexample :
    Ev.renameEv "sconv-q1w2e3" "--help" true ∈
      (sconvMain ["sconv", "-o", "--help"]
        ⟨true, some "sconv-q1w2e3", [], true, true⟩).evs ∧
    Ev.stderrOut (helpText "sconv" VERSION) ∉
      (sconvMain ["sconv", "-o", "--help"]
        ⟨true, some "sconv-q1w2e3", [], true, true⟩).evs := by
  decide

/-- Claim C10: an unrecognized short option is silently skipped: the
scan continues from the same parser state (no exception, no event), and
the whole run behaves exactly as if the option had not been given. -/
theorem C10_unknown_short_option_skipped (ch : Char) (h1 : ch ≠ 'o') (h2 : ch ≠ '-') :
    (∀ (st : ParseSt) (rest : List String),
      scanArgs st (String.mk ['-', ch] :: rest) = scanArgs st rest) ∧
    (∀ (prog : String) (rest : List String) (o : Oracle),
      sconvMain (prog :: String.mk ['-', ch] :: rest) o = sconvMain (prog :: rest) o) := by
  have key : ∀ (st : ParseSt) (rest : List String),
      scanArgs st (String.mk ['-', ch] :: rest) = scanArgs st rest := by
    intro st rest
    have e1 : String.mk ['-', ch] ≠ "--" := by
      intro hc
      have h' := congrArg String.data hc
      rw [show ("--" : String).data = ['-', '-'] from rfl] at h'
      simp at h'
      exact h2 h'
    have e2 : String.mk ['-', ch] ≠ "--help" := by
      intro hc
      have h' := congrArg String.data hc
      rw [show ("--help" : String).data = ['-', '-', 'h', 'e', 'l', 'p'] from rfl] at h'
      simp at h'
    have e3 : String.mk ['-', ch] ≠ "--output-file" := by
      intro hc
      have h' := congrArg String.data hc
      rw [show ("--output-file" : String).data =
        ['-', '-', 'o', 'u', 't', 'p', 'u', 't', '-', 'f', 'i', 'l', 'e'] from rfl] at h'
      simp at h'
    have e4 : hasPre "--output-file=" (String.mk ['-', ch]) = false := by
      unfold hasPre
      rw [decide_eq_false_iff_not]
      intro hc
      rw [show (String.mk ['-', ch]).toList.take ("--output-file=" : String).toList.length
          = ['-', ch] from rfl] at hc
      rw [show ("--output-file=" : String).toList =
        ['-', '-', 'o', 'u', 't', 'p', 'u', 't', '-', 'f', 'i', 'l', 'e', '='] from rfl] at hc
      simp at hc
    have e6 : hasPre "--" (String.mk ['-', ch]) = false := by
      unfold hasPre
      rw [decide_eq_false_iff_not]
      intro hc
      rw [show (String.mk ['-', ch]).toList.take ("--" : String).toList.length
          = ['-', ch] from rfl] at hc
      rw [show ("--" : String).toList = ['-', '-'] from rfl] at hc
      simp at hc
      exact h2 hc
    have e7 : hasPre "-" (String.mk ['-', ch]) = true := rfl
    have e8 : String.mk ['-', ch] ≠ "-" := by
      intro hc
      have h' := congrArg String.data hc
      rw [show ("-" : String).data = ['-'] from rfl] at h'
      simp at h'
    rw [scanArgs.eq_def]
    simp only [e1, e2, e3, e4, e6, e7, e8, h1, scanShorts.eq_def, String.toList,
      List.drop, if_neg, if_false, Bool.false_eq_true, if_true, ne_eq, not_false_iff,
      ite_false, ite_true, and_true, true_and]
  refine ⟨key, ?_⟩
  intro prog rest o
  have hp : parse_args (prog :: String.mk ['-', ch] :: rest) = parse_args (prog :: rest) := by
    unfold parse_args
    exact key ⟨"", []⟩ rest
  have hb : mainBody (prog :: String.mk ['-', ch] :: rest) o = mainBody (prog :: rest) o := by
    unfold mainBody
    rw [hp]
    rfl
  unfold sconvMain
  rw [hb]

/-- Witness for C10: the concrete unrecognized option `-x` is skipped. -/
theorem C10_unknown_short_option_skipped_witness :
    scanArgs ⟨"", []⟩ ["-x", "in.txt"] = scanArgs ⟨"", []⟩ ["in.txt"] ∧
    sconvMain ["sconv", "-x", "in.txt"] ⟨true, none, [], true, true⟩ =
      sconvMain ["sconv", "in.txt"] ⟨true, none, [], true, true⟩ := by
  have h := C10_unknown_short_option_skipped 'x' (by decide) (by decide)
  exact ⟨h.1 ⟨"", []⟩ ["in.txt"], h.2 "sconv" ["in.txt"] ⟨true, none, [], true, true⟩⟩

/-- Claim C2: per chunk, the byte count written is the allocated output
capacity `rv * sizeof(wchar_t)` minus the bytes left unconsumed in the
output buffer (`sOut`); exactly that many bytes are handed to `write`,
the count is added to the running total of the continuing loop, and a
write call returning any other count aborts the run with a fatal
error. -/
theorem C2_chunk_write_exact_count (sink : Sink) (c : ChunkO) (rest : List ReadRes)
    (total : Nat) (hwf : c.wf = true) (hic : c.icOpenOk = true) :
    (chunkWritten c).length = c.data.length * wcharSize - c.sOutLeft ∧
    (c.writeRet = Int.ofNat (toWrite c) →
      convLoop sink (.chunk c :: rest) total =
        (convLoop sink rest (total + toWrite c)).prepend
          (.readReq readCount (Int.ofNat c.data.length))
          (.fdWrite sink (chunkWritten c) c.writeRet)) ∧
    (c.writeRet ≠ Int.ofNat (toWrite c) →
      convLoop sink (.chunk c :: rest) total =
        .fail [.readReq readCount (Int.ofNat c.data.length),
               .fdWrite sink (chunkWritten c) c.writeRet]
          "Couldn't write the required bytes to stdout") := by
  unfold ChunkO.wf at hwf
  simp only [Bool.and_eq_true, decide_eq_true_eq] at hwf
  obtain ⟨⟨⟨h1, h2⟩, h3⟩, h4⟩ := hwf
  have hne : ¬c.data.length = 0 := Nat.pos_iff_ne_zero.mp h1
  refine ⟨?_, ?_, ?_⟩
  · rw [chunkWritten, List.length_take, h4]
    exact min_self _
  · intro hw
    rw [convLoop.eq_def]
    rcases hres : convLoop sink rest (total + toWrite c) with ⟨evs, t⟩ | ⟨evs, m⟩ <;>
      simp [hne, hic, hw, hres, LoopRes.prepend]
  · intro hw
    rw [convLoop.eq_def]
    simp [hne, hic, hw]
    exact fun h => absurd h hw

/-- Witness for C2: a concrete one-chunk run, with the matching and the
mismatching write return count. -/
theorem C2_chunk_write_exact_count_witness :
    (chunkWritten ⟨[97], true, [97, 0, 0, 0], 0, 0, 4⟩).length = 1 * wcharSize - 0 ∧
    ((4 : Int) = Int.ofNat (toWrite ⟨[97], true, [97, 0, 0, 0], 0, 0, 4⟩) →
      convLoop .stdout [.chunk ⟨[97], true, [97, 0, 0, 0], 0, 0, 4⟩] 0 =
        (convLoop .stdout [] (0 + toWrite ⟨[97], true, [97, 0, 0, 0], 0, 0, 4⟩)).prepend
          (.readReq readCount (Int.ofNat 1))
          (.fdWrite .stdout (chunkWritten ⟨[97], true, [97, 0, 0, 0], 0, 0, 4⟩) 4)) ∧
    ((4 : Int) ≠ Int.ofNat (toWrite ⟨[97], true, [97, 0, 0, 0], 0, 0, 4⟩) →
      convLoop .stdout [.chunk ⟨[97], true, [97, 0, 0, 0], 0, 0, 4⟩] 0 =
        .fail [.readReq readCount (Int.ofNat 1),
               .fdWrite .stdout (chunkWritten ⟨[97], true, [97, 0, 0, 0], 0, 0, 4⟩) 4]
          "Couldn't write the required bytes to stdout") :=
  C2_chunk_write_exact_count .stdout ⟨[97], true, [97, 0, 0, 0], 0, 0, 4⟩ [] 0
    (by decide) (by decide)

/-- Claim C8: when `-o` is set and `mkstemp` fails, `main` returns
immediately (`return false`, i.e. status 0) producing no output at all:
no stderr line of any kind, no write, and no read is ever attempted. -/
theorem C8_mkstemp_failure_silent_exit (argv : List String) (o : Oracle)
    (outfile : String) (ps : List String)
    (hp : parse_args argv = .args outfile ps)
    (ho : outfile ≠ "")
    (hin : inputOk ps o.openInOk = true)
    (hm : o.mkstempName = none) :
    (sconvMain argv o).status = 0 ∧
    (sconvMain argv o).evs =
      inputEvs ps o.openInOk ++ [.mkstempEv (tmpTemplate outfile) none] ∧
    ∀ e ∈ (sconvMain argv o).evs,
      (∀ s, e ≠ .stderrOut s) ∧ (∀ sk a r, e ≠ .fdWrite sk a r) ∧
      (∀ n rv, e ≠ .readReq n rv) := by
  have hbody : mainBody argv o =
      .ok (inputEvs ps o.openInOk ++ [.mkstempEv (tmpTemplate outfile) none]) := by
    simp [mainBody, hp, hin, hm, ho]
  have hevs : (sconvMain argv o).evs =
      inputEvs ps o.openInOk ++ [.mkstempEv (tmpTemplate outfile) none] := by
    simp [sconvMain, hbody]
  refine ⟨by simp [sconvMain, hbody], hevs, ?_⟩
  intro e he
  rw [hevs] at he
  rcases List.mem_append.mp he with h' | h'
  · cases ps with
    | nil => simp [inputEvs] at h'
    | cons p ps' =>
      simp only [inputEvs, List.mem_singleton] at h'
      subst h'
      exact ⟨by simp, by simp, by simp⟩
  · simp only [List.mem_singleton] at h'
    subst h'
    exact ⟨by simp, by simp, by simp⟩

/-- Witness for C8: a concrete run with `-o` and a failing `mkstemp`. -/
theorem C8_mkstemp_failure_silent_exit_witness :
    (sconvMain ["sconv", "-o", "out.txt"] ⟨true, none, [], true, true⟩).status = 0 ∧
    (sconvMain ["sconv", "-o", "out.txt"] ⟨true, none, [], true, true⟩).evs =
      inputEvs [] true ++ [.mkstempEv (tmpTemplate "out.txt") none] ∧
    ∀ e ∈ (sconvMain ["sconv", "-o", "out.txt"] ⟨true, none, [], true, true⟩).evs,
      (∀ s, e ≠ .stderrOut s) ∧ (∀ sk a r, e ≠ .fdWrite sk a r) ∧
      (∀ n rv, e ≠ .readReq n rv) :=
  C8_mkstemp_failure_silent_exit ["sconv", "-o", "out.txt"] ⟨true, none, [], true, true⟩
    "out.txt" [] (by decide) (by decide) (by decide) rfl

lemma inputEvs_not_touches (q : String) (ps : List String) (b : Bool) :
    ∀ e ∈ inputEvs ps b, touches e q = false := by
  intro e he
  cases ps with
  | nil => simp [inputEvs] at he
  | cons p ps' =>
    simp only [inputEvs, List.mem_singleton] at he
    subst he
    rfl

lemma mainEvs_loopFail (argv : List String) (o : Oracle) (outfile : String)
    (ps : List String) (tmp : String) (levs : List Ev) (msg : String)
    (hp : parse_args argv = .args outfile ps) (ho : outfile ≠ "")
    (hin : inputOk ps o.openInOk = true) (hm : o.mkstempName = some tmp)
    (hloop : convLoop (.tmpFd tmp) o.reads 0 = .fail levs msg) :
    (sconvMain argv o).evs =
      (inputEvs ps o.openInOk ++ .mkstempEv (tmpTemplate outfile) (some tmp) :: levs)
        ++ [.stderrOut ("Exception: " ++ msg)] := by
  simp [sconvMain, mainBody, hp, ho, hin, hm, hloop]

lemma mainEvs_chmodFail (argv : List String) (o : Oracle) (outfile : String)
    (ps : List String) (tmp : String) (levs : List Ev) (total : Nat)
    (hp : parse_args argv = .args outfile ps) (ho : outfile ≠ "")
    (hin : inputOk ps o.openInOk = true) (hm : o.mkstempName = some tmp)
    (hloop : convLoop (.tmpFd tmp) o.reads 0 = .ok levs total)
    (hc : o.chmodOk = false) :
    (sconvMain argv o).evs =
      ((inputEvs ps o.openInOk ++ .mkstempEv (tmpTemplate outfile) (some tmp) :: levs)
        ++ [.chmodEv tmp outMode false])
        ++ [.stderrOut "Exception: Can't change permissions of output file"] := by
  simp [sconvMain, mainBody, hp, ho, hin, hm, hloop, hc]

lemma mainEvs_renameFail (argv : List String) (o : Oracle) (outfile : String)
    (ps : List String) (tmp : String) (levs : List Ev) (total : Nat)
    (hp : parse_args argv = .args outfile ps) (ho : outfile ≠ "")
    (hin : inputOk ps o.openInOk = true) (hm : o.mkstempName = some tmp)
    (hloop : convLoop (.tmpFd tmp) o.reads 0 = .ok levs total)
    (hc : o.chmodOk = true) (hr : o.renameOk = false) :
    (sconvMain argv o).evs =
      ((inputEvs ps o.openInOk ++ .mkstempEv (tmpTemplate outfile) (some tmp) :: levs)
        ++ [.chmodEv tmp outMode true, .renameEv tmp outfile false])
        ++ [.stderrOut "Exception: Can't swap temp file to output file"] := by
  simp [sconvMain, mainBody, hp, ho, hin, hm, hloop, hc, hr]

lemma mainEvs_success (argv : List String) (o : Oracle) (outfile : String)
    (ps : List String) (tmp : String) (levs : List Ev) (total : Nat)
    (hp : parse_args argv = .args outfile ps) (ho : outfile ≠ "")
    (hin : inputOk ps o.openInOk = true) (hm : o.mkstempName = some tmp)
    (hloop : convLoop (.tmpFd tmp) o.reads 0 = .ok levs total)
    (hc : o.chmodOk = true) (hr : o.renameOk = true) :
    (sconvMain argv o).evs =
      (inputEvs ps o.openInOk ++ .mkstempEv (tmpTemplate outfile) (some tmp) :: levs)
        ++ [.chmodEv tmp outMode true, .renameEv tmp outfile true,
            .stderrOut (writtenMsg total)] := by
  simp [sconvMain, mainBody, hp, ho, hin, hm, hloop, hc, hr]

lemma mainEvs_openFail (argv : List String) (o : Oracle) (outfile : String)
    (ps : List String)
    (hp : parse_args argv = .args outfile ps)
    (hin : inputOk ps o.openInOk = false) :
    (sconvMain argv o).evs =
      inputEvs ps o.openInOk ++
        [.stderrOut ("Exception: " ++
          ("Can't open file '" ++ inputName ps ++ "' as input"))] := by
  simp [sconvMain, mainBody, hp, hin]

lemma applyEv_rename_src (fs : Fs) (src dst : String) (h : src ≠ dst) :
    applyEv fs (.renameEv src dst true) src = none := by
  show (if src = dst then fs src else if src = src then none else fs src) = none
  rw [if_neg h, if_pos rfl]

lemma runFs_pre_tmp (fs0 : Fs) (ps : List String) (b : Bool) (tpl tmp : String)
    (rs : List ReadRes) (levs : List Ev) (total : Nat)
    (hloop : convLoop (.tmpFd tmp) rs 0 = .ok levs total) :
    runFs fs0 (inputEvs ps b ++ Ev.mkstempEv tpl (some tmp) :: levs) tmp =
      some (loopOutput rs) := by
  have hsplit : inputEvs ps b ++ Ev.mkstempEv tpl (some tmp) :: levs =
      (inputEvs ps b ++ [Ev.mkstempEv tpl (some tmp)]) ++ levs := by
    simp
  rw [hsplit, runFs_append]
  have hfs2 : runFs fs0 (inputEvs ps b ++ [Ev.mkstempEv tpl (some tmp)]) tmp = some [] := by
    rw [runFs_append]
    simp [runFs, applyEv]
  have := convLoop_ok_content tmp rs 0 levs total hloop
    (runFs fs0 (inputEvs ps b ++ [Ev.mkstempEv tpl (some tmp)])) [] hfs2
  rw [this]
  simp

lemma applyEv_rename_dst (fs : Fs) (src dst : String) :
    applyEv fs (.renameEv src dst true) dst = fs src := by
  show (if dst = dst then fs src else if dst = src then none else fs dst) = fs src
  rw [if_pos rfl]

/-- Claim C1: with an output path configured, at every externally
observable point (every prefix of the run's event trace) the target path
holds either its prior content or the complete converted output — the
latter only once the rename happened; and whenever the conversion loop
fails (e.g. a short write), the target path keeps its prior state at
every point of the run.  The sole assumption is that `mkstemp`'s fresh
file is not the target itself. -/
theorem C1_target_unchanged_or_complete (argv : List String) (o : Oracle)
    (outfile : String) (ps : List String) (tmp : String) (fs0 : Fs) (n : Nat)
    (hp : parse_args argv = .args outfile ps)
    (ho : outfile ≠ "")
    (hm : o.mkstempName = some tmp)
    (ht : tmp ≠ outfile) :
    (runFs fs0 ((sconvMain argv o).evs.take n) outfile = fs0 outfile ∨
     runFs fs0 ((sconvMain argv o).evs.take n) outfile = some (loopOutput o.reads)) ∧
    ((convLoop (.tmpFd tmp) o.reads 0).isFail = true →
      runFs fs0 ((sconvMain argv o).evs.take n) outfile = fs0 outfile) := by
  have hqt : outfile ≠ tmp := fun h => ht h.symm
  have hpre : ∀ (evs : List Ev), (∀ e ∈ evs, touches e outfile = false) →
      runFs fs0 (evs.take n) outfile = fs0 outfile := by
    intro evs hno
    exact runFs_not_touches outfile (evs.take n) fs0
      (fun e he => hno e (List.take_subset n evs he))
  by_cases hin : inputOk ps o.openInOk = false
  · have hevs := mainEvs_openFail argv o outfile ps hp hin
    have hno : ∀ e ∈ (sconvMain argv o).evs, touches e outfile = false := by
      rw [hevs]
      intro e he
      rcases List.mem_append.mp he with h' | h'
      · exact inputEvs_not_touches _ ps _ e h'
      · simp only [List.mem_singleton] at h'
        subst h'
        rfl
    exact ⟨Or.inl (hpre _ hno), fun _ => hpre _ hno⟩
  · have hin' : inputOk ps o.openInOk = true := by
      revert hin
      cases inputOk ps o.openInOk <;> simp
    rcases hloop : convLoop (.tmpFd tmp) o.reads 0 with ⟨levs, total⟩ | ⟨levs, msg⟩
    · have hlevs_nt : ∀ e ∈ levs, touches e outfile = false := by
        intro e he
        exact convLoop_touches hqt o.reads 0 e (by rw [hloop]; exact he)
      have hmk_nt : touches (Ev.mkstempEv (tmpTemplate outfile) (some tmp)) outfile = false := by
        simp [touches, hqt]
      by_cases hc : o.chmodOk = false
      · have hevs := mainEvs_chmodFail argv o outfile ps tmp levs total hp ho hin' hm hloop hc
        have hno : ∀ e ∈ (sconvMain argv o).evs, touches e outfile = false := by
          rw [hevs]
          intro e he
          rcases List.mem_append.mp he with h' | h'
          · rcases List.mem_append.mp h' with h'' | h''
            · rcases List.mem_append.mp h'' with h3 | h3
              · exact inputEvs_not_touches _ ps _ e h3
              · rcases List.mem_cons.mp h3 with h4 | h4
                · subst h4; exact hmk_nt
                · exact hlevs_nt e h4
            · simp only [List.mem_singleton] at h''
              subst h''
              rfl
          · simp only [List.mem_singleton] at h'
            subst h'
            rfl
        exact ⟨Or.inl (hpre _ hno), fun _ => hpre _ hno⟩
      · have hc' : o.chmodOk = true := by
          revert hc
          cases o.chmodOk <;> simp
        by_cases hr : o.renameOk = false
        · have hevs := mainEvs_renameFail argv o outfile ps tmp levs total hp ho hin' hm hloop hc' hr
          have hno : ∀ e ∈ (sconvMain argv o).evs, touches e outfile = false := by
            rw [hevs]
            intro e he
            rcases List.mem_append.mp he with h' | h'
            · rcases List.mem_append.mp h' with h'' | h''
              · rcases List.mem_append.mp h'' with h3 | h3
                · exact inputEvs_not_touches _ ps _ e h3
                · rcases List.mem_cons.mp h3 with h4 | h4
                  · subst h4; exact hmk_nt
                  · exact hlevs_nt e h4
              · rcases List.mem_cons.mp h'' with h3 | h3
                · subst h3; rfl
                · simp only [List.mem_singleton] at h3
                  subst h3
                  simp [touches]
            · simp only [List.mem_singleton] at h'
              subst h'
              rfl
          exact ⟨Or.inl (hpre _ hno), fun _ => hpre _ hno⟩
        · have hr' : o.renameOk = true := by
            revert hr
            cases o.renameOk <;> simp
          have hevs := mainEvs_success argv o outfile ps tmp levs total hp ho hin' hm hloop hc' hr'
          have hevs2 : (sconvMain argv o).evs =
              ((inputEvs ps o.openInOk ++
                  Ev.mkstempEv (tmpTemplate outfile) (some tmp) :: levs)
                ++ [Ev.chmodEv tmp outMode true])
                ++ Ev.renameEv tmp outfile true :: [Ev.stderrOut (writtenMsg total)] := by
            rw [hevs]
            simp
          refine ⟨?_, ?_⟩
          swap
          · intro hf
            simp [LoopRes.isFail] at hf
          · have hAnt : ∀ e ∈ ((inputEvs ps o.openInOk ++
                Ev.mkstempEv (tmpTemplate outfile) (some tmp) :: levs)
                ++ [Ev.chmodEv tmp outMode true]), touches e outfile = false := by
              intro e he
              rcases List.mem_append.mp he with h' | h'
              · rcases List.mem_append.mp h' with h'' | h''
                · exact inputEvs_not_touches _ ps _ e h''
                · rcases List.mem_cons.mp h'' with h3 | h3
                  · subst h3; exact hmk_nt
                  · exact hlevs_nt e h3
              · simp only [List.mem_singleton] at h'
                subst h'
                rfl
            have hA_tmp : runFs fs0 ((inputEvs ps o.openInOk ++
                Ev.mkstempEv (tmpTemplate outfile) (some tmp) :: levs)
                ++ [Ev.chmodEv tmp outMode true]) tmp = some (loopOutput o.reads) := by
              rw [runFs_append]
              exact runFs_pre_tmp fs0 ps o.openInOk (tmpTemplate outfile) tmp
                o.reads levs total hloop
            rw [hevs2, List.take_append_eq_append_take, runFs_append]
            by_cases hn : n ≤ ((inputEvs ps o.openInOk ++
                Ev.mkstempEv (tmpTemplate outfile) (some tmp) :: levs)
                ++ [Ev.chmodEv tmp outMode true]).length
            · rw [Nat.sub_eq_zero_of_le hn, List.take_zero]
              left
              show runFs fs0 (List.take n _) outfile = fs0 outfile
              exact runFs_not_touches _ _ fs0
                (fun e he => hAnt e (List.take_subset n _ he))
            · have hlen : ((inputEvs ps o.openInOk ++
                  Ev.mkstempEv (tmpTemplate outfile) (some tmp) :: levs)
                  ++ [Ev.chmodEv tmp outMode true]).length ≤ n := le_of_not_le hn
              rw [List.take_of_length_le hlen]
              obtain ⟨k, hk⟩ : ∃ k, n - ((inputEvs ps o.openInOk ++
                  Ev.mkstempEv (tmpTemplate outfile) (some tmp) :: levs)
                  ++ [Ev.chmodEv tmp outMode true]).length = k + 1 := by
                refine ⟨n - ((inputEvs ps o.openInOk ++
                  Ev.mkstempEv (tmpTemplate outfile) (some tmp) :: levs)
                  ++ [Ev.chmodEv tmp outMode true]).length - 1, ?_⟩
                omega
              rw [hk, List.take_succ_cons]
              right
              rw [runFs_cons]
              have hren : applyEv (runFs fs0 ((inputEvs ps o.openInOk ++
                  Ev.mkstempEv (tmpTemplate outfile) (some tmp) :: levs)
                  ++ [Ev.chmodEv tmp outMode true]))
                  (Ev.renameEv tmp outfile true) outfile = some (loopOutput o.reads) := by
                rw [applyEv_rename_dst]
                exact hA_tmp
              rw [runFs_not_touches outfile _ _ ?_, hren]
              intro e he
              have h1 : e ∈ [Ev.stderrOut (writtenMsg total)] := List.take_subset k _ he
              simp only [List.mem_singleton] at h1
              subst h1
              rfl
    · have hevs := mainEvs_loopFail argv o outfile ps tmp levs msg hp ho hin' hm hloop
      have hno : ∀ e ∈ (sconvMain argv o).evs, touches e outfile = false := by
        rw [hevs]
        intro e he
        rcases List.mem_append.mp he with h' | h'
        · rcases List.mem_append.mp h' with h'' | h''
          · exact inputEvs_not_touches _ ps _ e h''
          · rcases List.mem_cons.mp h'' with h3 | h3
            · subst h3
              simp [touches, hqt]
            · exact convLoop_touches hqt o.reads 0 e (by rw [hloop]; exact h3)
        · simp only [List.mem_singleton] at h'
          subst h'
          rfl
      exact ⟨Or.inl (hpre _ hno), fun _ => hpre _ hno⟩

/-- Witness for C1: a concrete `-o` run whose single write is short
(the loop fails); every 5-element prefix of the trace leaves the target
untouched. -/
theorem C1_target_unchanged_or_complete_witness :
    (runFs (fun _ => none) ((sconvMain ["sconv", "-o", "out.txt"]
        ⟨true, some "sconv-q1w2e3",
          [.chunk ⟨[97, 98], true, [97, 0, 0, 0, 98, 0, 0, 0], 0, 0, 4⟩],
          true, true⟩).evs.take 5) "out.txt" =
        (fun _ => none : Fs) "out.txt" ∨
     runFs (fun _ => none) ((sconvMain ["sconv", "-o", "out.txt"]
        ⟨true, some "sconv-q1w2e3",
          [.chunk ⟨[97, 98], true, [97, 0, 0, 0, 98, 0, 0, 0], 0, 0, 4⟩],
          true, true⟩).evs.take 5) "out.txt" =
        some (loopOutput [.chunk ⟨[97, 98], true, [97, 0, 0, 0, 98, 0, 0, 0], 0, 0, 4⟩])) ∧
    ((convLoop (.tmpFd "sconv-q1w2e3")
        [.chunk ⟨[97, 98], true, [97, 0, 0, 0, 98, 0, 0, 0], 0, 0, 4⟩] 0).isFail = true →
      runFs (fun _ => none) ((sconvMain ["sconv", "-o", "out.txt"]
        ⟨true, some "sconv-q1w2e3",
          [.chunk ⟨[97, 98], true, [97, 0, 0, 0, 98, 0, 0, 0], 0, 0, 4⟩],
          true, true⟩).evs.take 5) "out.txt" =
        (fun _ => none : Fs) "out.txt") :=
  C1_target_unchanged_or_complete ["sconv", "-o", "out.txt"]
    ⟨true, some "sconv-q1w2e3",
      [.chunk ⟨[97, 98], true, [97, 0, 0, 0, 98, 0, 0, 0], 0, 0, 4⟩], true, true⟩
    "out.txt" [] "sconv-q1w2e3" (fun _ => none) 5
    (by decide) (by decide) rfl (by decide)

/-- Claim C3 (amended): when `-o` is given, the `mkstemp` template is
`<dirname(path)>sconv-XXXXXX` provided that name fits in the 255-byte
`snprintf` buffer (at most 254 characters; longer templates are
truncated); after the loop the temp file's permissions are set to
owner rwx + group r + other r (0744) and it is renamed onto the final
path; a chmod or rename failure is fatal and reported, and the temp
file is left behind with the converted content; on success the temp
name is gone and the target holds the converted content. -/
theorem C3_temp_publish_protocol (argv : List String) (o : Oracle) (outfile : String)
    (ps : List String) (tmp : String) (levs : List Ev) (total : Nat) (fs0 : Fs)
    (hp : parse_args argv = .args outfile ps) (ho : outfile ≠ "")
    (hin : inputOk ps o.openInOk = true) (hm : o.mkstempName = some tmp)
    (hlen : (get_basedir outfile ++ "sconv-XXXXXX").length ≤ 254)
    (hloop : convLoop (.tmpFd tmp) o.reads 0 = .ok levs total)
    (ht : tmp ≠ outfile) :
    tmpTemplate outfile = get_basedir outfile ++ "sconv-XXXXXX" ∧
    outMode = 0o744 ∧
    (o.chmodOk = false →
      (sconvMain argv o).evs =
        ((inputEvs ps o.openInOk ++ Ev.mkstempEv (tmpTemplate outfile) (some tmp) :: levs)
          ++ [Ev.chmodEv tmp outMode false])
          ++ [Ev.stderrOut "Exception: Can't change permissions of output file"] ∧
      runFs fs0 (sconvMain argv o).evs tmp = some (loopOutput o.reads)) ∧
    (o.chmodOk = true → o.renameOk = false →
      (sconvMain argv o).evs =
        ((inputEvs ps o.openInOk ++ Ev.mkstempEv (tmpTemplate outfile) (some tmp) :: levs)
          ++ [Ev.chmodEv tmp outMode true, Ev.renameEv tmp outfile false])
          ++ [Ev.stderrOut "Exception: Can't swap temp file to output file"] ∧
      runFs fs0 (sconvMain argv o).evs tmp = some (loopOutput o.reads)) ∧
    (o.chmodOk = true → o.renameOk = true →
      (sconvMain argv o).evs =
        (inputEvs ps o.openInOk ++ Ev.mkstempEv (tmpTemplate outfile) (some tmp) :: levs)
          ++ [Ev.chmodEv tmp outMode true, Ev.renameEv tmp outfile true,
              Ev.stderrOut (writtenMsg total)] ∧
      runFs fs0 (sconvMain argv o).evs tmp = none ∧
      runFs fs0 (sconvMain argv o).evs outfile = some (loopOutput o.reads)) := by
  refine ⟨?_, rfl, ?_, ?_, ?_⟩
  · unfold tmpTemplate
    exact snprintf255_eq hlen
  · intro hc
    have hevs := mainEvs_chmodFail argv o outfile ps tmp levs total hp ho hin hm hloop hc
    refine ⟨hevs, ?_⟩
    rw [hevs, runFs_append, runFs_append]
    exact runFs_pre_tmp fs0 ps o.openInOk (tmpTemplate outfile) tmp o.reads levs total hloop
  · intro hc hr
    have hevs := mainEvs_renameFail argv o outfile ps tmp levs total hp ho hin hm hloop hc hr
    refine ⟨hevs, ?_⟩
    rw [hevs, runFs_append, runFs_append]
    exact runFs_pre_tmp fs0 ps o.openInOk (tmpTemplate outfile) tmp o.reads levs total hloop
  · intro hc hr
    have hevs := mainEvs_success argv o outfile ps tmp levs total hp ho hin hm hloop hc hr
    refine ⟨hevs, ?_, ?_⟩
    · rw [hevs, runFs_append]
      show applyEv (runFs fs0 (inputEvs ps o.openInOk ++
          Ev.mkstempEv (tmpTemplate outfile) (some tmp) :: levs))
        (Ev.renameEv tmp outfile true) tmp = none
      exact applyEv_rename_src _ tmp outfile ht
    · rw [hevs, runFs_append]
      show applyEv (runFs fs0 (inputEvs ps o.openInOk ++
          Ev.mkstempEv (tmpTemplate outfile) (some tmp) :: levs))
        (Ev.renameEv tmp outfile true) outfile = some (loopOutput o.reads)
      rw [applyEv_rename_dst]
      exact runFs_pre_tmp fs0 ps o.openInOk (tmpTemplate outfile) tmp o.reads levs total hloop

set_option maxRecDepth 8192 in
/-- Counterexample to C3 as stated: for a target whose dirname has 243
characters, the template passed to `mkstemp` is the `snprintf`-truncated
string, not `<dirname(path)>sconv-XXXXXX` (the final `X` is cut off). -/
theorem C3_counterexample :
    (sconvMain ["sconv", "-o", String.mk (List.replicate 242 'a') ++ "/x"]
        ⟨true, none, [], true, true⟩).evs =
      [Ev.mkstempEv (snprintf255 (get_basedir (String.mk (List.replicate 242 'a') ++ "/x")
        ++ "sconv-XXXXXX")) none] ∧
    snprintf255 (get_basedir (String.mk (List.replicate 242 'a') ++ "/x") ++ "sconv-XXXXXX") ≠
      get_basedir (String.mk (List.replicate 242 'a') ++ "/x") ++ "sconv-XXXXXX" := by
  constructor
  · rfl
  · decide

/-- Witness for C3: a concrete successful `-o` run follows the whole
publish protocol. -/
theorem C3_temp_publish_protocol_witness :
    tmpTemplate "out.txt" = get_basedir "out.txt" ++ "sconv-XXXXXX" ∧
    outMode = 0o744 ∧
    (true = false →
      (sconvMain ["sconv", "-o", "out.txt"] ⟨true, some "sconv-q1w2e3",
        [.chunk ⟨[97, 98], true, [97, 0, 0, 0, 98, 0, 0, 0], 0, 0, 8⟩], true, true⟩).evs =
        ((inputEvs [] true ++ Ev.mkstempEv (tmpTemplate "out.txt") (some "sconv-q1w2e3") ::
            [.readReq readCount 2,
             .fdWrite (.tmpFd "sconv-q1w2e3") [97, 0, 0, 0, 98, 0, 0, 0] 8,
             .readReq readCount 0])
          ++ [Ev.chmodEv "sconv-q1w2e3" outMode false])
          ++ [Ev.stderrOut "Exception: Can't change permissions of output file"] ∧
      runFs (fun _ => none) (sconvMain ["sconv", "-o", "out.txt"] ⟨true, some "sconv-q1w2e3",
        [.chunk ⟨[97, 98], true, [97, 0, 0, 0, 98, 0, 0, 0], 0, 0, 8⟩], true, true⟩).evs
        "sconv-q1w2e3" =
        some (loopOutput [.chunk ⟨[97, 98], true, [97, 0, 0, 0, 98, 0, 0, 0], 0, 0, 8⟩])) ∧
    (true = true → true = false →
      (sconvMain ["sconv", "-o", "out.txt"] ⟨true, some "sconv-q1w2e3",
        [.chunk ⟨[97, 98], true, [97, 0, 0, 0, 98, 0, 0, 0], 0, 0, 8⟩], true, true⟩).evs =
        ((inputEvs [] true ++ Ev.mkstempEv (tmpTemplate "out.txt") (some "sconv-q1w2e3") ::
            [.readReq readCount 2,
             .fdWrite (.tmpFd "sconv-q1w2e3") [97, 0, 0, 0, 98, 0, 0, 0] 8,
             .readReq readCount 0])
          ++ [Ev.chmodEv "sconv-q1w2e3" outMode true,
              Ev.renameEv "sconv-q1w2e3" "out.txt" false])
          ++ [Ev.stderrOut "Exception: Can't swap temp file to output file"] ∧
      runFs (fun _ => none) (sconvMain ["sconv", "-o", "out.txt"] ⟨true, some "sconv-q1w2e3",
        [.chunk ⟨[97, 98], true, [97, 0, 0, 0, 98, 0, 0, 0], 0, 0, 8⟩], true, true⟩).evs
        "sconv-q1w2e3" =
        some (loopOutput [.chunk ⟨[97, 98], true, [97, 0, 0, 0, 98, 0, 0, 0], 0, 0, 8⟩])) ∧
    (true = true → true = true →
      (sconvMain ["sconv", "-o", "out.txt"] ⟨true, some "sconv-q1w2e3",
        [.chunk ⟨[97, 98], true, [97, 0, 0, 0, 98, 0, 0, 0], 0, 0, 8⟩], true, true⟩).evs =
        (inputEvs [] true ++ Ev.mkstempEv (tmpTemplate "out.txt") (some "sconv-q1w2e3") ::
            [.readReq readCount 2,
             .fdWrite (.tmpFd "sconv-q1w2e3") [97, 0, 0, 0, 98, 0, 0, 0] 8,
             .readReq readCount 0])
          ++ [Ev.chmodEv "sconv-q1w2e3" outMode true,
              Ev.renameEv "sconv-q1w2e3" "out.txt" true,
              Ev.stderrOut (writtenMsg 8)] ∧
      runFs (fun _ => none) (sconvMain ["sconv", "-o", "out.txt"] ⟨true, some "sconv-q1w2e3",
        [.chunk ⟨[97, 98], true, [97, 0, 0, 0, 98, 0, 0, 0], 0, 0, 8⟩], true, true⟩).evs
        "sconv-q1w2e3" = none ∧
      runFs (fun _ => none) (sconvMain ["sconv", "-o", "out.txt"] ⟨true, some "sconv-q1w2e3",
        [.chunk ⟨[97, 98], true, [97, 0, 0, 0, 98, 0, 0, 0], 0, 0, 8⟩], true, true⟩).evs
        "out.txt" =
        some (loopOutput [.chunk ⟨[97, 98], true, [97, 0, 0, 0, 98, 0, 0, 0], 0, 0, 8⟩])) :=
  C3_temp_publish_protocol ["sconv", "-o", "out.txt"]
    ⟨true, some "sconv-q1w2e3",
      [.chunk ⟨[97, 98], true, [97, 0, 0, 0, 98, 0, 0, 0], 0, 0, 8⟩], true, true⟩
    "out.txt" [] "sconv-q1w2e3"
    [.readReq readCount 2,
     .fdWrite (.tmpFd "sconv-q1w2e3") [97, 0, 0, 0, 98, 0, 0, 0] 8,
     .readReq readCount 0] 8 (fun _ => none)
    (by decide) (by decide) rfl rfl (by decide) (by decide) (by decide)

/-- Claim C5: the result of the `iconv` call is never checked — the
residual input count it reports (`sIn`) is discarded without any error
or diagnostic: every run is bit-for-bit identical when those counts are
erased from the oracle, and a chunk whose conversion left unconsumed
input bytes still completes silently, writing only the converted
prefix, with the loop moving on to the next read. -/
theorem C5_unconsumed_input_silently_dropped :
    (∀ (sink : Sink) (rs : List ReadRes) (total : Nat),
      convLoop sink (rs.map scrubSIn) total = convLoop sink rs total) ∧
    (∀ (argv : List String) (o : Oracle),
      sconvMain argv
        ⟨o.openInOk, o.mkstempName, o.reads.map scrubSIn, o.chmodOk, o.renameOk⟩ =
        sconvMain argv o) ∧
    (∀ (sink : Sink) (c : ChunkO) (total : Nat),
      0 < c.sInLeft → 0 < c.data.length → c.icOpenOk = true →
      c.writeRet = Int.ofNat (toWrite c) →
      convLoop sink [.chunk c] total =
        .ok [.readReq readCount (Int.ofNat c.data.length),
             .fdWrite sink (chunkWritten c) c.writeRet,
             .readReq readCount 0] (total + toWrite c)) := by
  have key : ∀ (sink : Sink) (rs : List ReadRes) (total : Nat),
      convLoop sink (rs.map scrubSIn) total = convLoop sink rs total := by
    intro sink rs
    induction rs with
    | nil => intro total; rfl
    | cons r rest ih =>
      intro total
      cases r with
      | eof => rfl
      | rerr => rfl
      | chunk c =>
        rw [List.map_cons]
        rw [convLoop.eq_def]
        conv_rhs => rw [convLoop.eq_def]
        simp only [scrubSIn]
        by_cases h0 : c.data.length = 0
        · simp [h0]
        · by_cases hic : c.icOpenOk = false
          · simp [h0, hic]
          · simp [h0, hic, toWrite, chunkWritten, ih]
  refine ⟨key, ?_, ?_⟩
  · intro argv o
    have hb : mainBody argv
        ⟨o.openInOk, o.mkstempName, o.reads.map scrubSIn, o.chmodOk, o.renameOk⟩ =
        mainBody argv o := by
      unfold mainBody
      simp only [key]
    unfold sconvMain
    rw [hb]
  · intro sink c total hsin h0 hic hw
    rw [convLoop.eq_def]
    simp [Nat.pos_iff_ne_zero.mp h0, hic, hw, convLoop]

/-- Witness for C5: a chunk holding a lone UTF-8 lead byte that `iconv`
does not consume at all (`sIn` stays 1, nothing produced) proceeds
silently. -/
theorem C5_unconsumed_input_silently_dropped_witness :
    convLoop .stdout ([.chunk ⟨[226], true, [], 1, 4, 0⟩].map scrubSIn) 0 =
      convLoop .stdout [.chunk ⟨[226], true, [], 1, 4, 0⟩] 0 ∧
    convLoop .stdout [.chunk ⟨[226], true, [], 1, 4, 0⟩] 0 =
      .ok [.readReq readCount (Int.ofNat 1),
           .fdWrite .stdout (chunkWritten ⟨[226], true, [], 1, 4, 0⟩) 0,
           .readReq readCount 0] (0 + toWrite ⟨[226], true, [], 1, 4, 0⟩) :=
  ⟨C5_unconsumed_input_silently_dropped.1 .stdout [.chunk ⟨[226], true, [], 1, 4, 0⟩] 0,
   C5_unconsumed_input_silently_dropped.2.2 .stdout ⟨[226], true, [], 1, 4, 0⟩ 0
     (by decide) (by decide) rfl (by decide)⟩

/-- Claim C6: with empty input (the first read returns 0), the run
reports `Written: 0 bytes` on the error stream; with `-o` set (and the
publish system calls succeeding) the publish step still runs, leaving
the final target as an empty file. -/
theorem C6_empty_input_reports_zero_and_publishes (argv : List String) (o : Oracle)
    (outfile : String) (ps : List String)
    (hp : parse_args argv = .args outfile ps)
    (hin : inputOk ps o.openInOk = true)
    (hre : o.reads = []) :
    writtenMsg 0 = "Written: 0 bytes" ∧
    (outfile = "" →
      (sconvMain argv o).evs =
        inputEvs ps o.openInOk ++ [.readReq readCount 0, .stderrOut (writtenMsg 0)]) ∧
    (∀ tmp, outfile ≠ "" → o.mkstempName = some tmp →
      o.chmodOk = true → o.renameOk = true →
      (sconvMain argv o).evs =
        (inputEvs ps o.openInOk ++
          Ev.mkstempEv (tmpTemplate outfile) (some tmp) :: [Ev.readReq readCount 0])
          ++ [Ev.chmodEv tmp outMode true, Ev.renameEv tmp outfile true,
              Ev.stderrOut (writtenMsg 0)] ∧
      ∀ fs0 : Fs, runFs fs0 (sconvMain argv o).evs outfile = some []) := by
  refine ⟨rfl, ?_, ?_⟩
  · intro ho
    simp [sconvMain, mainBody, hp, hin, hre, ho, convLoop]
  · intro tmp ho hm hc hr
    have hloop : convLoop (.tmpFd tmp) o.reads 0 = .ok [.readReq readCount 0] 0 := by
      rw [hre, convLoop.eq_def]
    have hevs := mainEvs_success argv o outfile ps tmp [.readReq readCount 0] 0
      hp ho hin hm hloop hc hr
    refine ⟨hevs, ?_⟩
    intro fs0
    rw [hevs, runFs_append]
    show applyEv (runFs fs0 (inputEvs ps o.openInOk ++
        Ev.mkstempEv (tmpTemplate outfile) (some tmp) :: [Ev.readReq readCount 0]))
      (Ev.renameEv tmp outfile true) outfile = some []
    rw [applyEv_rename_dst]
    have := runFs_pre_tmp fs0 ps o.openInOk (tmpTemplate outfile) tmp
      o.reads [.readReq readCount 0] 0 hloop
    rw [hre] at this
    exact this

/-- Witness for C6: a concrete empty-input run with `-o`. -/
theorem C6_empty_input_reports_zero_and_publishes_witness :
    writtenMsg 0 = "Written: 0 bytes" ∧
    ("out.txt" = "" →
      (sconvMain ["sconv", "-o", "out.txt"]
        ⟨true, some "sconv-q1w2e3", [], true, true⟩).evs =
        inputEvs [] true ++ [.readReq readCount 0, .stderrOut (writtenMsg 0)]) ∧
    (∀ tmp, "out.txt" ≠ "" →
      (some "sconv-q1w2e3" : Option String) = some tmp →
      true = true → true = true →
      (sconvMain ["sconv", "-o", "out.txt"]
        ⟨true, some "sconv-q1w2e3", [], true, true⟩).evs =
        (inputEvs [] true ++
          Ev.mkstempEv (tmpTemplate "out.txt") (some tmp) :: [Ev.readReq readCount 0])
          ++ [Ev.chmodEv tmp outMode true, Ev.renameEv tmp "out.txt" true,
              Ev.stderrOut (writtenMsg 0)] ∧
      ∀ fs0 : Fs, runFs fs0 (sconvMain ["sconv", "-o", "out.txt"]
        ⟨true, some "sconv-q1w2e3", [], true, true⟩).evs "out.txt" = some []) :=
  C6_empty_input_reports_zero_and_publishes ["sconv", "-o", "out.txt"]
    ⟨true, some "sconv-q1w2e3", [], true, true⟩ "out.txt" []
    (by decide) (by decide) rfl

lemma mainEvs_help (argv : List String) (o : Oracle)
    (hp : parse_args argv = .help) :
    (sconvMain argv o).evs = [.stderrOut (helpText (argv.headD "") VERSION)] := by
  simp [sconvMain, mainBody, hp]

lemma mainEvs_stdout_ok (argv : List String) (o : Oracle) (ps : List String)
    (levs : List Ev) (total : Nat)
    (hp : parse_args argv = .args "" ps)
    (hin : inputOk ps o.openInOk = true)
    (hloop : convLoop .stdout o.reads 0 = .ok levs total) :
    (sconvMain argv o).evs =
      inputEvs ps o.openInOk ++ levs ++ [.stderrOut (writtenMsg total)] := by
  simp [sconvMain, mainBody, hp, hin, hloop]

lemma mainEvs_stdout_fail (argv : List String) (o : Oracle) (ps : List String)
    (levs : List Ev) (msg : String)
    (hp : parse_args argv = .args "" ps)
    (hin : inputOk ps o.openInOk = true)
    (hloop : convLoop .stdout o.reads 0 = .fail levs msg) :
    (sconvMain argv o).evs =
      (inputEvs ps o.openInOk ++ levs) ++ [.stderrOut ("Exception: " ++ msg)] := by
  simp [sconvMain, mainBody, hp, hin, hloop]

lemma mainEvs_mkstempFail (argv : List String) (o : Oracle) (outfile : String)
    (ps : List String)
    (hp : parse_args argv = .args outfile ps) (ho : outfile ≠ "")
    (hin : inputOk ps o.openInOk = true) (hm : o.mkstempName = none) :
    (sconvMain argv o).evs =
      inputEvs ps o.openInOk ++ [.mkstempEv (tmpTemplate outfile) none] := by
  simp [sconvMain, mainBody, hp, ho, hin, hm]

lemma inputEvs_no_readReq (ps : List String) (b : Bool) :
    ∀ e ∈ inputEvs ps b, ∀ n rv, e ≠ Ev.readReq n rv := by
  intro e he n rv
  cases ps with
  | nil => simp [inputEvs] at he
  | cons p ps' =>
    simp only [inputEvs, List.mem_singleton] at he
    subst he
    simp

lemma loop_readReq_count {sink : Sink} {rs : List ReadRes} {total : Nat} {e : Ev}
    (he : e ∈ (convLoop sink rs total).evs)
    {n : Nat} {rv : Int} (hee : e = .readReq n rv) : n = readCount := by
  rcases convLoop_shape sink rs total e he with ⟨r, h'⟩ | ⟨a, r, h'⟩
  · rw [hee] at h'
    injection h' with h1 h2
  · rw [hee] at h'
    exact absurd h' (by simp)

lemma mainEvs_readReq_count (argv : List String) (o : Oracle) :
    ∀ e ∈ (sconvMain argv o).evs, ∀ n rv, e = Ev.readReq n rv → n = readCount := by
  intro e he n rv hee
  rcases hparse : parse_args argv with _ | ⟨outfile, ps⟩
  · rw [mainEvs_help argv o hparse] at he
    simp only [List.mem_singleton] at he
    rw [he] at hee
    exact absurd hee (by simp)
  · by_cases hin : inputOk ps o.openInOk = false
    · rw [mainEvs_openFail argv o outfile ps hparse hin] at he
      rcases List.mem_append.mp he with h' | h'
      · exact absurd hee (inputEvs_no_readReq ps o.openInOk e h' n rv)
      · simp only [List.mem_singleton] at h'
        rw [h'] at hee
        exact absurd hee (by simp)
    · have hin' : inputOk ps o.openInOk = true := by
        revert hin
        cases inputOk ps o.openInOk <;> simp
      by_cases ho : outfile = ""
      · subst ho
        rcases hloop : convLoop .stdout o.reads 0 with ⟨levs, total⟩ | ⟨levs, msg⟩
        · rw [mainEvs_stdout_ok argv o ps levs total hparse hin' hloop] at he
          rcases List.mem_append.mp he with h' | h'
          · rcases List.mem_append.mp h' with h'' | h''
            · exact absurd hee (inputEvs_no_readReq ps o.openInOk e h'' n rv)
            · exact loop_readReq_count (by rw [hloop]; exact h'') hee
          · simp only [List.mem_singleton] at h'
            rw [h'] at hee
            exact absurd hee (by simp)
        · rw [mainEvs_stdout_fail argv o ps levs msg hparse hin' hloop] at he
          rcases List.mem_append.mp he with h' | h'
          · rcases List.mem_append.mp h' with h'' | h''
            · exact absurd hee (inputEvs_no_readReq ps o.openInOk e h'' n rv)
            · exact loop_readReq_count (by rw [hloop]; exact h'') hee
          · simp only [List.mem_singleton] at h'
            rw [h'] at hee
            exact absurd hee (by simp)
      · rcases hmk : o.mkstempName with _ | tmp
        · rw [mainEvs_mkstempFail argv o outfile ps hparse ho hin' hmk] at he
          rcases List.mem_append.mp he with h' | h'
          · exact absurd hee (inputEvs_no_readReq ps o.openInOk e h' n rv)
          · simp only [List.mem_singleton] at h'
            rw [h'] at hee
            exact absurd hee (by simp)
        · rcases hloop : convLoop (.tmpFd tmp) o.reads 0 with ⟨levs, total⟩ | ⟨levs, msg⟩
          · by_cases hc : o.chmodOk = false
            · rw [mainEvs_chmodFail argv o outfile ps tmp levs total
                hparse ho hin' hmk hloop hc] at he
              rcases List.mem_append.mp he with h' | h'
              · rcases List.mem_append.mp h' with h'' | h''
                · rcases List.mem_append.mp h'' with h3 | h3
                  · exact absurd hee (inputEvs_no_readReq ps o.openInOk e h3 n rv)
                  · rcases List.mem_cons.mp h3 with h4 | h4
                    · rw [h4] at hee
                      exact absurd hee (by simp)
                    · exact loop_readReq_count (by rw [hloop]; exact h4) hee
                · simp only [List.mem_singleton] at h''
                  rw [h''] at hee
                  exact absurd hee (by simp)
              · simp only [List.mem_singleton] at h'
                rw [h'] at hee
                exact absurd hee (by simp)
            · have hc' : o.chmodOk = true := by
                revert hc
                cases o.chmodOk <;> simp
              by_cases hr : o.renameOk = false
              · rw [mainEvs_renameFail argv o outfile ps tmp levs total
                  hparse ho hin' hmk hloop hc' hr] at he
                rcases List.mem_append.mp he with h' | h'
                · rcases List.mem_append.mp h' with h'' | h''
                  · rcases List.mem_append.mp h'' with h3 | h3
                    · exact absurd hee (inputEvs_no_readReq ps o.openInOk e h3 n rv)
                    · rcases List.mem_cons.mp h3 with h4 | h4
                      · rw [h4] at hee
                        exact absurd hee (by simp)
                      · exact loop_readReq_count (by rw [hloop]; exact h4) hee
                  · rcases List.mem_cons.mp h'' with h3 | h3
                    · rw [h3] at hee
                      exact absurd hee (by simp)
                    · simp only [List.mem_singleton] at h3
                      rw [h3] at hee
                      exact absurd hee (by simp)
                · simp only [List.mem_singleton] at h'
                  rw [h'] at hee
                  exact absurd hee (by simp)
              · have hr' : o.renameOk = true := by
                  revert hr
                  cases o.renameOk <;> simp
                rw [mainEvs_success argv o outfile ps tmp levs total
                  hparse ho hin' hmk hloop hc' hr'] at he
                rcases List.mem_append.mp he with h' | h'
                · rcases List.mem_append.mp h' with h'' | h''
                  · exact absurd hee (inputEvs_no_readReq ps o.openInOk e h'' n rv)
                  · rcases List.mem_cons.mp h'' with h3 | h3
                    · rw [h3] at hee
                      exact absurd hee (by simp)
                    · exact loop_readReq_count (by rw [hloop]; exact h3) hee
                · rcases List.mem_cons.mp h' with h3 | h3
                  · rw [h3] at hee
                    exact absurd hee (by simp)
                  · rcases List.mem_cons.mp h3 with h4 | h4
                    · rw [h4] at hee
                      exact absurd hee (by simp)
                    · simp only [List.mem_singleton] at h4
                      rw [h4] at hee
                      exact absurd hee (by simp)
          · rw [mainEvs_loopFail argv o outfile ps tmp levs msg
              hparse ho hin' hmk hloop] at he
            rcases List.mem_append.mp he with h' | h'
            · rcases List.mem_append.mp h' with h'' | h''
              · exact absurd hee (inputEvs_no_readReq ps o.openInOk e h'' n rv)
              · rcases List.mem_cons.mp h'' with h3 | h3
                · rw [h3] at hee
                  exact absurd hee (by simp)
                · exact loop_readReq_count (by rw [hloop]; exact h3) hee
            · simp only [List.mem_singleton] at h'
              rw [h'] at hee
              exact absurd hee (by simp)

/-- Claim C4: every read of the conversion loop requests `buf_sz - 1 =
4095` bytes (so, with POSIX `read` never returning more than requested,
at most 4095 bytes arrive per iteration), and a read returning zero or
a negative value ends the loop as normal completion — for a read error
the run still performs the publish step and prints the byte-count
report, exactly as on end of stream. -/
theorem C4_read_bound_and_zero_negative_completion :
    readCount = 4095 ∧ readCount = buf_sz - 1 ∧
    (∀ (argv : List String) (o : Oracle) (e : Ev),
      e ∈ (sconvMain argv o).evs → ∀ n rv, e = .readReq n rv → n = 4095) ∧
    (∀ (rs : List ReadRes), readsWF rs = true →
      ∀ c, ReadRes.chunk c ∈ rs → c.data.length ≤ 4095) ∧
    (∀ (sink : Sink) (rest : List ReadRes) (total : Nat),
      convLoop sink (.eof :: rest) total = .ok [.readReq readCount 0] total ∧
      convLoop sink (.rerr :: rest) total = .ok [.readReq readCount (-1)] total) ∧
    (∀ (argv : List String) (o : Oracle) (outfile : String) (ps : List String)
       (tmp : String) (rest : List ReadRes),
      parse_args argv = .args outfile ps → inputOk ps o.openInOk = true →
      o.reads = .rerr :: rest → outfile ≠ "" → o.mkstempName = some tmp →
      o.chmodOk = true → o.renameOk = true →
      (sconvMain argv o).evs =
        (inputEvs ps o.openInOk ++
          Ev.mkstempEv (tmpTemplate outfile) (some tmp) :: [Ev.readReq readCount (-1)])
          ++ [Ev.chmodEv tmp outMode true, Ev.renameEv tmp outfile true,
              Ev.stderrOut (writtenMsg 0)]) := by
  refine ⟨rfl, rfl, ?_, ?_, ?_, ?_⟩
  · exact mainEvs_readReq_count
  · intro rs hwf c hc
    unfold readsWF at hwf
    rw [List.all_eq_true] at hwf
    have := hwf (ReadRes.chunk c) hc
    simp only [ChunkO.wf, Bool.and_eq_true, decide_eq_true_eq] at this
    exact this.1.1.2
  · intro sink rest total
    constructor <;> rw [convLoop.eq_def]
  · intro argv o outfile ps tmp rest hp hin hre ho hm hc hr
    have hloop : convLoop (.tmpFd tmp) o.reads 0 = .ok [.readReq readCount (-1)] 0 := by
      rw [hre, convLoop.eq_def]
    exact mainEvs_success argv o outfile ps tmp [.readReq readCount (-1)] 0
      hp ho hin hm hloop hc hr

/-- Witness for C4: a concrete run whose first read fails still
publishes and reports zero bytes written. -/
theorem C4_read_bound_and_zero_negative_completion_witness :
    Ev.readReq readCount 0 ∈ (sconvMain ["sconv"] ⟨true, none, [], true, true⟩).evs ∧
    readCount = 4095 ∧
    (Ev.readReq readCount 0 = Ev.readReq readCount 0 → readCount = 4095) ∧
    (readsWF [.chunk ⟨[97], true, [97, 0, 0, 0], 0, 0, 4⟩] = true →
      ∀ c, ReadRes.chunk c ∈ [ReadRes.chunk ⟨[97], true, [97, 0, 0, 0], 0, 0, 4⟩] →
        c.data.length ≤ 4095) ∧
    (sconvMain ["sconv", "-o", "out.txt"] ⟨true, some "sconv-q1w2e3", [.rerr], true, true⟩).evs =
      (inputEvs [] true ++
        Ev.mkstempEv (tmpTemplate "out.txt") (some "sconv-q1w2e3") ::
          [Ev.readReq readCount (-1)])
        ++ [Ev.chmodEv "sconv-q1w2e3" outMode true,
            Ev.renameEv "sconv-q1w2e3" "out.txt" true,
            Ev.stderrOut (writtenMsg 0)] := by
  refine ⟨by decide, rfl, ?_, ?_, ?_⟩
  · intro h
    exact mainEvs_readReq_count ["sconv"] ⟨true, none, [], true, true⟩
      (Ev.readReq readCount 0) (by decide) readCount 0 rfl
  · exact C4_read_bound_and_zero_negative_completion.2.2.2.1
      [.chunk ⟨[97], true, [97, 0, 0, 0], 0, 0, 4⟩]
  · exact C4_read_bound_and_zero_negative_completion.2.2.2.2.2
      ["sconv", "-o", "out.txt"] ⟨true, some "sconv-q1w2e3", [.rerr], true, true⟩
      "out.txt" [] "sconv-q1w2e3" [] (by decide) (by decide) rfl (by decide) rfl rfl rfl

end Sconv

